import Mathlib

/-!
Verification of the deej-with-buttons serial protocol engine
(`pkg/deej/serial.go`): line-grammar classification, slider/button
channel-state tracking, button action triggering, and the
configuration-reload reconnect decision.

Go strings are modelled as `List Char`, Go `int` as `Int` (or `Nat` for
channel counts, which are only ever assigned non-negative lengths), and
`float32` slider scalars as `ℚ`.  The two helpers `util.NormalizeScalar`
and `util.SignificantlyDifferent` live outside the sources at hand, so
they are modelled from the specification text (see their doc comments).
-/

namespace Deej

/-- ASCII digit test, the semantics of `\d` in Go's regexp package. -/
def isDig (c : Char) : Bool := '0' ≤ c && c ≤ '9'

/-- Model of `strings.Split` with a one-character separator: splits
`cs` on every occurrence of `d`; always returns at least one group. -/
def splitOnChar (d : Char) : List Char → List (List Char)
  | [] => [[]]
  | c :: rest =>
    match splitOnChar d rest with
    | [] => [[]]
    | g :: gs => if c = d then [] :: g :: gs else (c :: g) :: gs

/-- Splits off the mandatory `\r\n` trailer required by both line
patterns (`...\r\n$`); `none` when the line does not end in CRLF. -/
def splitCRLF (cs : List Char) : Option (List Char) :=
  match cs.reverse with
  | a :: b :: rest => if a = '\n' ∧ b = '\r' then some rest.reverse else none
  | _ => none

/-- One group of the slider pattern `\d{1,4}`: one to four digits. -/
def sliderGroupOK (g : List Char) : Bool :=
  decide (1 ≤ g.length ∧ g.length ≤ 4) && g.all isDig

/-- Model of `expectedLinePattern.MatchString`, the regular expression
`^\d{1,4}(\|\d{1,4})*\r\n$` from `serial.go`. -/
def sliderMatch (cs : List Char) : Bool :=
  match splitCRLF cs with
  | some body => (splitOnChar '|' body).all sliderGroupOK
  | none => false

/-- Body of the button pattern after the leading `~`: the regular
expression fragment `(\d~)+` (equivalently `\d(~\d)*~`). -/
def tailButtons : List Char → Bool
  | d :: t :: rest => isDig d && decide (t = '~') && (rest.isEmpty || tailButtons rest)
  | _ => false

/-- Model of `buttonLinePattern.MatchString`, the regular expression
`^~\d(\~\d)*~\r\n$` from `serial.go`. -/
def buttonMatch (cs : List Char) : Bool :=
  match splitCRLF cs with
  | some (c :: rest) => decide (c = '~') && tailButtons rest
  | _ => false

/-- Model of `strconv.Atoi` restricted to the inputs reachable here:
the matched fields are plain digit runs, which parse to their value;
on anything else Go's `Atoi` returns `0` together with an error that
`handleLine`/`handleButtons` discard (`number, _ := strconv.Atoi`). -/
def atoi (cs : List Char) : Int :=
  if cs ≠ [] ∧ cs.all isDig then
    cs.foldl (fun acc c => acc * 10 + (Int.ofNat (c.toNat - '0'.toNat))) 0
  else 0

/-- Model of `strings.TrimSuffix(line, "\r\n")`. -/
def trimCRLF (cs : List Char) : List Char := (splitCRLF cs).getD cs

/-- Model of `strings.TrimSuffix(line, "~")`: drops one trailing `~`. -/
def trimOneTildeEnd (cs : List Char) : List Char :=
  match cs.reverse with
  | t :: rest => if t = '~' then rest.reverse else cs
  | [] => cs

/-- Model of `strings.Trim(line, "~")`: drops all leading and trailing
`~` characters. -/
def trimTilde (cs : List Char) : List Char :=
  ((cs.dropWhile (fun c => c = '~')).reverse.dropWhile (fun c => c = '~')).reverse

/-- The slider fields of a line, as parsed by `handleLine`: trim the
CRLF trailer, split on `|`, `Atoi` each field. -/
def parsedSliderValues (line : List Char) : List Int :=
  (splitOnChar '|' (trimCRLF line)).map atoi

/-- The button fields of a line, as parsed by `handleButtons`: trim the
CRLF trailer, one trailing `~`, then all outer `~`, split on `~`,
`Atoi` each field. -/
def parsedButtonValues (line : List Char) : List Int :=
  (splitOnChar '~' (trimTilde (trimOneTildeEnd (trimCRLF line)))).map atoi

/-- The configuration snapshot consumed by the serial engine:
`ConnectionInfo.COMPort`, `ConnectionInfo.BaudRate`,
`InvertSliders` and the noise-reduction setting.  Modelled from the
spec: the config component itself is outside the sources at hand; the
spec binds each `NoiseReductionLevel` to an epsilon threshold without
fixing the numeric values, so the threshold appears directly as
`noiseEpsilon`. -/
structure DeejConfig where
  comPort : String
  baudRate : Nat
  invertSliders : Bool
  noiseEpsilon : ℚ
deriving DecidableEq

/-- The mutable per-connection tracker state of `SerialIO`:
`lastKnownNumSliders`, `currentSliderPercentValues`,
`lastKnownNumButtons`, `currentButtonValues`. -/
structure SioState where
  lastKnownNumSliders : Nat
  currentSliderPercentValues : List ℚ
  lastKnownNumButtons : Nat
  currentButtonValues : List Int
deriving DecidableEq

/-- The zero value of the tracker fields when `NewSerialIO` returns. -/
def initialSioState : SioState := ⟨0, [], 0, []⟩

/-- SliderMoveEvent from `serial.go`: slider index and normalized
percent value. -/
structure SliderMoveEvent where
  SliderID : Nat
  PercentValue : ℚ
deriving DecidableEq

/-- ButtonPressEvent from `serial.go`: button index, previous stored
value and new value. -/
structure ButtonPressEvent where
  ButtonID : Nat
  PreviousValue : Int
  ButtonValue : Int
deriving DecidableEq

/-- A raw reading clamped to the nominal ADC range; clamping the
reading before the division by 1023 is the same as clamping the
quotient to `[0, 1]` after it (`clampRaw_cast` below). -/
def clampRaw (n : Int) : Int :=
  if n ≤ 0 then 0 else if 1023 ≤ n then 1023 else n

/-- The normalized scalar in hundredths, as an integer in `0..100`:
`round (100 * clamp (n / 1023) 0 1)` computed exactly over `ℤ`
(`scalarHundredths_eq_round` below proves the correspondence). -/
def scalarHundredths (n : Int) : Int := (200 * clampRaw n + 1023) / 2046

/-- Modelled from the spec: `util.NormalizeScalar` is not among the
sources at hand; the spec prescribes "normalize raw reading to [0,1]
(divide by 1023, clamp, round to two-decimal precision)".  Stated via
`scalarHundredths` so that it is kernel-evaluable; the theorem
`normalizeScalar_eq_round` proves it equal to the spec's formula. -/
def normalizeScalar (n : Int) : ℚ := mkRat (scalarHundredths n) 100

/-- Exact rational subtraction, stated in the kernel-evaluable `mkRat`
form; `qsub_eq_sub` proves it equal to `x - y`. -/
def qsub (x y : ℚ) : ℚ := mkRat (x.num * y.den - y.num * x.den) (x.den * y.den)

/-- Absolute value on `ℚ` in kernel-evaluable form; `qabs_eq_abs`
proves it equal to `|x|`. -/
def qabs (x : ℚ) : ℚ := if x.num < 0 then -x else x

/-- Modelled from the spec: `util.SignificantlyDifferent` is not among
the sources at hand; the spec prescribes "compare to last-emitted value
using the configured noise epsilon — if the absolute difference exceeds
the epsilon (or state was unset), update stored state and append a
SliderMoveEvent", with `-1` as the unset sentinel.
`significantlyDifferent_iff` restates it over `|new - old|`. -/
def significantlyDifferent (old new ε : ℚ) : Bool :=
  decide (ε < qabs (qsub new old) ∨ old = -1)

/-- The normalized (and, when configured, inverted) scalar stored and
emitted by `handleLine` for one raw slider reading. -/
def normValue (cfg : DeejConfig) (n : Int) : ℚ :=
  if cfg.invertSliders then qsub 1 (normalizeScalar n) else normalizeScalar n

/-- The per-channel loop of `handleLine` over the split slider fields,
threading the stored per-channel scalars.  `none` models the early
`return` on a malformed first value (`sliderIdx == 0 && number > 1023`);
the `stored = []` underflow case cannot arise after the count-reset
block and stands in for the index-out-of-range panic Go would raise. -/
def sliderLoopAux (cfg : DeejConfig) (idx : Nat) :
    List ℚ → List Int → Option (List ℚ × List SliderMoveEvent)
  | stored, [] => some (stored, [])
  | stored, n :: rest =>
    if idx = 0 ∧ 1023 < n then none
    else
      match stored with
      | [] => none
      | old :: os =>
        let norm := normValue cfg n
        match sliderLoopAux cfg (idx + 1) os rest with
        | none => none
        | some (st, evs) =>
          if significantlyDifferent old norm cfg.noiseEpsilon then
            some (norm :: st, ⟨idx, norm⟩ :: evs)
          else
            some (old :: st, evs)

/-- Result of processing one slider frame: updated tracker state and
the SliderMoveEvents delivered to the subscribed consumers. -/
structure SliderFrameResult where
  state : SioState
  events : List SliderMoveEvent
deriving DecidableEq

/-- The slider branch of `handleLine` after parsing: the channel-count
reset block followed by the per-channel loop.  On the malformed-line
early return the count-reset mutation (already applied to `sio`)
persists and no events are delivered. -/
def handleSliderFrame (cfg : DeejConfig) (s : SioState) (vals : List Int) :
    SliderFrameResult :=
  let s1 :=
    if vals.length ≠ s.lastKnownNumSliders then
      { s with
        lastKnownNumSliders := vals.length
        currentSliderPercentValues := List.replicate vals.length (-1) }
    else s
  match sliderLoopAux cfg 0 s1.currentSliderPercentValues vals with
  | none => ⟨s1, []⟩
  | some (st, evs) => ⟨{ s1 with currentSliderPercentValues := st }, evs⟩

/-- The per-channel loop of `handleButtons` over the split button
fields; `none` models the early `return` on a malformed first value
(`sliderIdx == 0 && number > 9`), and the `stored = []` underflow case
as in `sliderLoopAux`. -/
def buttonLoopAux (idx : Nat) :
    List Int → List Int → Option (List Int × List ButtonPressEvent)
  | stored, [] => some (stored, [])
  | stored, n :: rest =>
    if idx = 0 ∧ 9 < n then none
    else
      match stored with
      | [] => none
      | old :: os =>
        match buttonLoopAux (idx + 1) os rest with
        | none => none
        | some (st, evs) =>
          if old ≠ n then some (n :: st, ⟨idx, old, n⟩ :: evs)
          else some (old :: st, evs)

/-- Result of processing one button frame: updated tracker state, the
computed ButtonPressEvents (never delivered externally — that delivery
loop is disabled in the source), and the events for which
`pressedButton` is invoked, in invocation order. -/
structure ButtonFrameResult where
  state : SioState
  events : List ButtonPressEvent
  triggered : List ButtonPressEvent
deriving DecidableEq

/-- Body of `handleButtons` after parsing: the channel-count reset
block, the per-channel loop, then one `pressedButton` invocation per
event whose previous value is `0` and new value non-zero. -/
def handleButtonFrame (s : SioState) (vals : List Int) : ButtonFrameResult :=
  let s1 :=
    if vals.length ≠ s.lastKnownNumButtons then
      { s with
        lastKnownNumButtons := vals.length
        currentButtonValues := List.replicate vals.length (-1) }
    else s
  match buttonLoopAux 0 s1.currentButtonValues vals with
  | none => ⟨s1, [], []⟩
  | some (st, evs) =>
    ⟨{ s1 with currentButtonValues := st }, evs,
     evs.filter fun e => decide (e.PreviousValue = 0 ∧ e.ButtonValue ≠ 0)⟩

/-- Everything observable from one `handleLine` call: the tracker state
afterwards, the slider events delivered to consumers, the button events
computed (not delivered), and the `pressedButton` invocations. -/
structure LineResult where
  state : SioState
  sliderEvents : List SliderMoveEvent
  buttonEvents : List ButtonPressEvent
  triggered : List ButtonPressEvent
deriving DecidableEq

/-- Model of `handleLine`: try the button pattern first, then the
slider pattern, and silently drop anything matching neither. -/
def handleLine (cfg : DeejConfig) (s : SioState) (line : List Char) :
    LineResult :=
  if buttonMatch line then
    let r := handleButtonFrame s (parsedButtonValues line)
    ⟨r.state, [], r.events, r.triggered⟩
  else if sliderMatch line then
    let r := handleSliderFrame cfg s (parsedSliderValues line)
    ⟨r.state, r.events, [], []⟩
  else ⟨s, [], [], []⟩

/-- Folding `handleLine` over a sequence of raw lines from the initial
tracker state. -/
def processLines (cfg : DeejConfig) (lines : List (List Char)) : SioState :=
  lines.foldl (fun s l => (handleLine cfg s l).state) initialSioState

/-- The key names of the `KEY_MAPS` table in `serial.go` (the numeric
key codes live in the external `keybd_event` library and play no role
in the control flow). -/
def KEY_MAPS : List String :=
  ["VK_MEDIA_NEXT_TRACK", "VK_MEDIA_PREV_TRACK", "VK_MEDIA_STOP",
   "VK_MEDIA_PLAY_PAUSE", "VK_LAUNCH_MEDIA_SELECT", "VK_VOLUME_MUTE",
   "VK_VOLUME_DOWN", "VK_VOLUME_UP", "VK_BROWSER_BACK",
   "VK_BROWSER_FORWARD", "VK_BROWSER_REFRESH", "VK_BROWSER_STOP",
   "VK_BROWSER_SEARCH", "VK_BROWSER_FAVORITES", "VK_BROWSER_HOME"]

/-- Model of `kbKeySimple`: succeeds exactly when the key name is in
`KEY_MAPS` ("Key not found" otherwise). -/
def kbKeySimple (key : String) : Bool := KEY_MAPS.contains key

/-- The configured action tokens that `pressedButton` reports as
invalid with a local diagnostic: everything that is neither of the two
composite sentinels nor a `KEY_MAPS` name.  The loop continues past
them, so they never affect the invocation's outcome. -/
def tokenDiagnostics (tokens : List String) : List String :=
  tokens.filter fun t =>
    decide (¬(t = "FORCE_REFRESH" ∨ t = "WIN_MIC_MUTE_TOGGLE" ∨ kbKeySimple t = true))

/-- Behaviour of the external key-input collaborator (`keybd_event`)
for one invocation: whether `NewKeyBonding()` fails, and whether
`Launching()` fails. -/
structure KeyInputCollab where
  initError : Option String
  launchError : Option String
deriving DecidableEq

/-- Outcome of one `pressedButton` invocation as observed by the serial
read loop: either a normal return, or a `panic(err)` escaping it. -/
inductive InvocationOutcome where
  | ok : InvocationOutcome
  | panicked : String → InvocationOutcome
deriving DecidableEq

/-- Model of `pressedButton`: `kb, err := keybd_event.NewKeyBonding();
if err != nil { panic(err) }`, then the token loop (which only logs
unknown tokens — see `tokenDiagnostics`), then `err = kb.Launching();
if err != nil { panic(err) }`.  Which keys get set is a side effect on
the external collaborator and does not influence the outcome. -/
def pressedButton (collab : KeyInputCollab) (tokens : List String) :
    InvocationOutcome :=
  match collab.initError with
  | some msg => InvocationOutcome.panicked msg
  | none =>
    let _diags := tokenDiagnostics tokens
    match collab.launchError with
    | some msg => InvocationOutcome.panicked msg
    | none => InvocationOutcome.ok

/-- The connection parameters in effect (`sio.connOptions`): port name
and baud rate, the identity used for reconnect detection. -/
structure ConnOptions where
  portName : String
  baudRate : Nat
deriving DecidableEq

/-- A stop or start of the serial connection, as issued by the
config-reload goroutine. -/
inductive ConnAction where
  | stop : ConnAction
  | start : ConnAction
deriving DecidableEq

/-- The connection-lifecycle decision of `setupOnConfigReload` on one
configuration-change notification: if the new snapshot's COM port or
baud rate differs from `sio.connOptions`, stop then (after the grace
delay) start; otherwise touch the connection not at all. -/
def reloadConnActions (cfg : DeejConfig) (opts : ConnOptions) : List ConnAction :=
  if cfg.comPort ≠ opts.portName ∨ cfg.baudRate ≠ opts.baudRate then
    [ConnAction.stop, ConnAction.start]
  else []

/-- A concrete configuration snapshot used by witnesses: the config
file's COM6/9600, uninverted, epsilon 1/40 = 0.025. -/
def sampleConfig : DeejConfig := ⟨"COM6", 9600, false, mkRat 1 40⟩

/-- One digit per button channel, written as the grammar writes them:
each digit followed by a `~`. -/
def interleaveTilde : List Char → List Char
  | [] => []
  | d :: ds => d :: '~' :: interleaveTilde ds

/-- The shape of a button line as the wire contract describes it: `~`,
then digit-`~` pairs, then CRLF. -/
def buttonLineOfDigits (ds : List Char) : List Char :=
  '~' :: interleaveTilde ds ++ ['\r', '\n']

/-- The events a slider frame produces when every channel is at the
unset sentinel: one event per channel, in channel order. -/
def sliderEventsAll (cfg : DeejConfig) (idx : Nat) : List Int → List SliderMoveEvent
  | [] => []
  | n :: rest => ⟨idx, normValue cfg n⟩ :: sliderEventsAll cfg (idx + 1) rest

/-- The ButtonPressEvents a button frame produces channel by channel:
one event exactly for the channels whose stored value differs from the
frame's value. -/
def buttonEventsSpec (idx : Nat) : List Int → List Int → List ButtonPressEvent
  | old :: os, n :: ns =>
    (if old ≠ n then [⟨idx, old, n⟩] else []) ++ buttonEventsSpec (idx + 1) os ns
  | _, _ => []

/-- The C10 invariant: every stored slider scalar is the unset sentinel
or a normalized value in the unit interval. -/
def sliderValuesOK (s : SioState) : Prop :=
  ∀ q ∈ s.currentSliderPercentValues, q = -1 ∨ (0 ≤ q ∧ q ≤ 1)

end Deej

example : Deej.sliderMatch ("512|1023|0\r\n".data) = true := by decide
example : Deej.sliderMatch ("garbage\r\n".data) = false := by decide
example : Deej.buttonMatch ("~0~1~0~\r\n".data) = true := by decide
example : Deej.buttonMatch ("~0~1~0~\n".data) = false := by decide
example : Deej.buttonMatch ("~2~\r\n".data) = true := by decide
example : Deej.parsedSliderValues ("512|1023|0\r\n".data) = [512, 1023, 0] := by decide
example : Deej.parsedButtonValues ("~0~1~0~\r\n".data) = [0, 1, 0] := by decide

/-!
Bridge lemmas: the kernel-evaluable definitions above coincide with
the arithmetic formulas of the specification.
-/

namespace Deej

theorem qsub_eq_sub (x y : ℚ) : qsub x y = x - y := (Rat.sub_def' x y).symm

theorem qabs_eq_abs (x : ℚ) : qabs x = |x| := by
  unfold qabs
  split
  · rename_i h
    refine (abs_of_neg (not_le.mp ?_)).symm
    rw [← Rat.num_nonneg]
    omega
  · rename_i h
    refine (abs_of_nonneg ?_).symm
    rw [← Rat.num_nonneg]
    omega

theorem significantlyDifferent_iff (old new ε : ℚ) :
    significantlyDifferent old new ε = true ↔ (ε < |new - old| ∨ old = -1) := by
  unfold significantlyDifferent
  rw [decide_eq_true_iff, qsub_eq_sub, qabs_eq_abs]

theorem clampRaw_cast (n : Int) :
    ((clampRaw n : ℤ) : ℚ) / 1023 = max 0 (min ((n : ℚ) / 1023) 1) := by
  unfold clampRaw
  rcases le_or_lt n 0 with h | h
  · rw [if_pos h, max_eq_left, Int.cast_zero, zero_div]
    refine le_trans (min_le_left _ _) ?_
    exact div_nonpos_iff.mpr (Or.inr ⟨by exact_mod_cast h, by norm_num⟩)
  · rw [if_neg (not_le.mpr h)]
    rcases le_or_lt 1023 n with h2 | h2
    · rw [if_pos h2]
      have h1 : (1 : ℚ) ≤ (n : ℚ) / 1023 := by
        rw [le_div_iff₀ (by norm_num), one_mul]
        exact_mod_cast h2
      rw [min_eq_right h1, max_eq_right (by norm_num : (0:ℚ) ≤ 1)]
      norm_num
    · rw [if_neg (not_le.mpr h2)]
      have h0 : (0 : ℚ) ≤ (n : ℚ) / 1023 :=
        div_nonneg (by exact_mod_cast h.le) (by norm_num)
      have h1 : (n : ℚ) / 1023 ≤ 1 := by
        rw [div_le_one (by norm_num)]
        exact_mod_cast h2.le
      rw [min_eq_left h1, max_eq_right h0]

theorem scalarHundredths_eq_round (n : Int) :
    ((scalarHundredths n : ℤ) : ℚ) = round (max 0 (min ((n : ℚ) / 1023) 1) * 100) := by
  rw [← clampRaw_cast, round_eq]
  have key : ((clampRaw n : ℤ) : ℚ) / 1023 * 100 + 1/2
      = ((200 * clampRaw n + 1023 : ℤ) : ℚ) / ((2046 : ℕ) : ℚ) := by
    push_cast
    ring
  rw [key, Rat.floor_intCast_div_natCast]
  unfold scalarHundredths
  norm_num

/-- The executable `normalizeScalar` is exactly the spec's
"divide by 1023, clamp to [0,1], round to two decimals". -/
theorem normalizeScalar_eq_round (n : Int) :
    normalizeScalar n
      = ((round (max 0 (min ((n : ℚ) / 1023) 1) * 100) : ℤ) : ℚ) / 100 := by
  unfold normalizeScalar
  rw [Rat.mkRat_eq_div, scalarHundredths_eq_round]
  norm_num

theorem clampRaw_nonneg (n : Int) : 0 ≤ clampRaw n := by
  unfold clampRaw; split
  · omega
  · split <;> omega

theorem clampRaw_le (n : Int) : clampRaw n ≤ 1023 := by
  unfold clampRaw; split
  · omega
  · split <;> omega

theorem scalarHundredths_nonneg (n : Int) : 0 ≤ scalarHundredths n := by
  unfold scalarHundredths
  have h1 := clampRaw_nonneg n
  omega

theorem scalarHundredths_le (n : Int) : scalarHundredths n ≤ 100 := by
  unfold scalarHundredths
  have h1 := clampRaw_le n
  omega

theorem normalizeScalar_nonneg (n : Int) : 0 ≤ normalizeScalar n := by
  unfold normalizeScalar
  rw [Rat.mkRat_eq_div]
  have := scalarHundredths_nonneg n
  exact div_nonneg (by exact_mod_cast this) (by norm_num)

theorem normalizeScalar_le_one (n : Int) : normalizeScalar n ≤ 1 := by
  unfold normalizeScalar
  rw [Rat.mkRat_eq_div]
  have := scalarHundredths_le n
  rw [div_le_one (by norm_num)]
  exact_mod_cast this

theorem normValue_nonneg (cfg : DeejConfig) (n : Int) : 0 ≤ normValue cfg n := by
  unfold normValue
  split
  · rw [qsub_eq_sub]
    have := normalizeScalar_le_one n
    linarith
  · exact normalizeScalar_nonneg n

theorem normValue_le_one (cfg : DeejConfig) (n : Int) : normValue cfg n ≤ 1 := by
  unfold normValue
  split
  · rw [qsub_eq_sub]
    have := normalizeScalar_nonneg n
    linarith
  · exact normalizeScalar_le_one n

theorem normValue_ne_negOne (cfg : DeejConfig) (n : Int) : normValue cfg n ≠ -1 := by
  have := normValue_nonneg cfg n
  intro h
  rw [h] at this
  norm_num at this

theorem significantlyDifferent_self (x ε : ℚ) (hε : 0 ≤ ε) (hx : x ≠ -1) :
    significantlyDifferent x x ε = false := by
  unfold significantlyDifferent
  rw [decide_eq_false_iff_not, qsub_eq_sub, qabs_eq_abs]
  push_neg
  constructor
  · simp only [sub_self, abs_zero]
    exact hε
  · exact hx

theorem significantlyDifferent_unset (x ε : ℚ) :
    significantlyDifferent (-1) x ε = true := by
  unfold significantlyDifferent
  rw [decide_eq_true_iff]
  exact Or.inr rfl

end Deej

namespace Deej

theorem splitOnChar_ne_nil (d : Char) (cs : List Char) : splitOnChar d cs ≠ [] := by
  induction cs with
  | nil => simp [splitOnChar]
  | cons c rest ih =>
    unfold splitOnChar
    cases hsp : splitOnChar d rest with
    | nil => simp
    | cons g gs =>
      by_cases hc : c = d <;> simp [hc]

theorem splitOnChar_cons_of_ne (d c : Char) (rest : List Char) (hne : c ≠ d) :
    ∃ g gs, splitOnChar d rest = g :: gs ∧ splitOnChar d (c :: rest) = (c :: g) :: gs := by
  cases hsp : splitOnChar d rest with
  | nil => exact absurd hsp (splitOnChar_ne_nil d rest)
  | cons g gs =>
    refine ⟨g, gs, rfl, ?_⟩
    simp only [splitOnChar, hsp]
    rw [if_neg hne]

theorem slider_not_button {cs : List Char} (h : sliderMatch cs = true) :
    buttonMatch cs = false := by
  unfold sliderMatch at h
  unfold buttonMatch
  cases hsp : splitCRLF cs with
  | none => rw [hsp] at h
  | some body =>
    rw [hsp] at h
    simp only [] at h
    cases body with
    | nil => simp [splitOnChar, sliderGroupOK] at h
    | cons c rest =>
      by_cases hc : c = '~'
      · exfalso
        subst hc
        obtain ⟨g, gs, _, hsplit⟩ := splitOnChar_cons_of_ne '|' '~' rest (by decide)
        rw [hsplit] at h
        simp [sliderGroupOK, isDig] at h
      · simp [hc]

theorem parsedSliderValues_ne_nil (line : List Char) : parsedSliderValues line ≠ [] := by
  unfold parsedSliderValues
  intro h
  exact splitOnChar_ne_nil '|' (trimCRLF line) (List.map_eq_nil_iff.mp h)

end Deej

namespace Deej

theorem sliderLoopAux_first_big (cfg : DeejConfig) (v : Int) (vs : List Int)
    (hv : 1023 < v) (stored : List ℚ) :
    sliderLoopAux cfg 0 stored (v :: vs) = none := by
  unfold sliderLoopAux
  rw [if_pos ⟨rfl, hv⟩]

/-- C2 (counterexample): a grammar-valid slider line whose first field
exceeds 1023 is not discarded atomically — with an established
2-channel state, the torn line `4558|925|41|643|220` emits zero events
but still rewrites the remembered channel count to 5 and resets the
stored values to the sentinel. -/
theorem malformedFirstValue_mutates_state :
    sliderMatch ("4558|925|41|643|220\r\n".data) = true
    ∧ (handleLine sampleConfig ⟨2, [mkRat 50 100, mkRat 50 100], 0, []⟩
        ("4558|925|41|643|220\r\n".data)).sliderEvents = []
    ∧ (handleLine sampleConfig ⟨2, [mkRat 50 100, mkRat 50 100], 0, []⟩
        ("4558|925|41|643|220\r\n".data)).state.lastKnownNumSliders = 5
    ∧ (handleLine sampleConfig ⟨2, [mkRat 50 100, mkRat 50 100], 0, []⟩
        ("4558|925|41|643|220\r\n".data)).state.currentSliderPercentValues
        = [-1, -1, -1, -1, -1] := by
  exact ⟨by decide, by decide, by decide, by decide⟩

/-- C2 (amended): a grammar-valid slider line whose first parsed field
exceeds 1023 emits zero events and triggers nothing, and the
per-channel loop performs no updates; the state is unchanged when the
frame's channel count equals the remembered one, and otherwise only the
count-change reset (new remembered count, all values to the sentinel)
has been applied before the frame is discarded. -/
theorem malformedFirstValue_discard (cfg : DeejConfig) (s : SioState) (line : List Char)
    (hmatch : sliderMatch line = true)
    (hfirst : 1023 < (parsedSliderValues line).headI) :
    (handleLine cfg s line).sliderEvents = []
    ∧ (handleLine cfg s line).buttonEvents = []
    ∧ (handleLine cfg s line).triggered = []
    ∧ (handleLine cfg s line).state =
        (if (parsedSliderValues line).length ≠ s.lastKnownNumSliders then
          { s with
            lastKnownNumSliders := (parsedSliderValues line).length
            currentSliderPercentValues :=
              List.replicate (parsedSliderValues line).length (-1) }
         else s) := by
  have hb := slider_not_button hmatch
  obtain ⟨v, vs, hv⟩ := List.exists_cons_of_ne_nil (parsedSliderValues_ne_nil line)
  have hfirst' : 1023 < v := by rw [hv] at hfirst; simpa using hfirst
  simp only [handleLine, hb, hmatch, Bool.false_eq_true, if_false, if_true]
  unfold handleSliderFrame
  rw [hv]
  simp only [sliderLoopAux_first_big cfg v vs hfirst']
  exact ⟨trivial, trivial, trivial, trivial⟩

theorem malformedFirstValue_discard_witness :
    sliderMatch ("4558|925\r\n".data) = true
    ∧ 1023 < (parsedSliderValues ("4558|925\r\n".data)).headI
    ∧ ((handleLine sampleConfig ⟨2, [mkRat 50 100, mkRat 50 100], 0, []⟩
          ("4558|925\r\n".data)).sliderEvents = []
       ∧ (handleLine sampleConfig ⟨2, [mkRat 50 100, mkRat 50 100], 0, []⟩
          ("4558|925\r\n".data)).buttonEvents = []
       ∧ (handleLine sampleConfig ⟨2, [mkRat 50 100, mkRat 50 100], 0, []⟩
          ("4558|925\r\n".data)).triggered = []
       ∧ (handleLine sampleConfig ⟨2, [mkRat 50 100, mkRat 50 100], 0, []⟩
          ("4558|925\r\n".data)).state =
          (if (parsedSliderValues ("4558|925\r\n".data)).length
              ≠ (⟨2, [mkRat 50 100, mkRat 50 100], 0, []⟩ : SioState).lastKnownNumSliders then
            { (⟨2, [mkRat 50 100, mkRat 50 100], 0, []⟩ : SioState) with
              lastKnownNumSliders := (parsedSliderValues ("4558|925\r\n".data)).length
              currentSliderPercentValues :=
                List.replicate (parsedSliderValues ("4558|925\r\n".data)).length (-1) }
           else ⟨2, [mkRat 50 100, mkRat 50 100], 0, []⟩)) :=
  ⟨by decide, by decide,
   malformedFirstValue_discard sampleConfig _ _ (by decide) (by decide)⟩

end Deej

namespace Deej

/-- C7: the button line `~0~1~0~` (CRLF-terminated) parses to [0,1,0];
the slider line `512|1023|0` parses to [512,1023,0], which normalize
uninverted to [0.50, 1.00, 0.00]. -/
theorem roundtrip_parse_normalize :
    buttonMatch ("~0~1~0~\r\n".data) = true
    ∧ parsedButtonValues ("~0~1~0~\r\n".data) = [0, 1, 0]
    ∧ sliderMatch ("512|1023|0\r\n".data) = true
    ∧ parsedSliderValues ("512|1023|0\r\n".data) = [512, 1023, 0]
    ∧ (parsedSliderValues ("512|1023|0\r\n".data)).map
        (normValue ⟨"COM6", 9600, false, mkRat 1 40⟩)
        = [1/2, 1, 0] := by
  refine ⟨by decide, by decide, by decide, by decide, ?_⟩
  have h : parsedSliderValues ("512|1023|0\r\n".data) = [512, 1023, 0] := by decide
  rw [h]
  simp only [List.map_cons, List.map_nil]
  norm_num [normValue, normalizeScalar, scalarHundredths, clampRaw, Rat.mkRat_eq_div]

/-- C8: a line matching neither grammar is silently dropped — no
events, no action triggers, state untouched. -/
theorem handleLine_unrecognized_noop (cfg : DeejConfig) (s : SioState)
    (line : List Char) (hb : buttonMatch line = false)
    (hs : sliderMatch line = false) :
    handleLine cfg s line = ⟨s, [], [], []⟩ := by
  unfold handleLine
  rw [hb, hs]
  simp

theorem handleLine_unrecognized_noop_witness :
    buttonMatch ("hello world\r\n".data) = false
    ∧ sliderMatch ("hello world\r\n".data) = false
    ∧ handleLine sampleConfig ⟨2, [mkRat 50 100, mkRat 50 100], 3, [0, 1, 0]⟩
        ("hello world\r\n".data)
        = ⟨⟨2, [mkRat 50 100, mkRat 50 100], 3, [0, 1, 0]⟩, [], [], []⟩ :=
  ⟨by decide, by decide,
   handleLine_unrecognized_noop sampleConfig _ _ (by decide) (by decide)⟩

/-- C1 (code evaluated at the failing input): when the external
key-input collaborator fails to initialize — or to issue the key
action — `pressedButton` panics with that error instead of absorbing
it; the panic escapes the invocation (and with it the serial read
loop's goroutine). -/
theorem pressedButton_panics_on_failure :
    pressedButton ⟨some ("NewKeyBonding failed"), none⟩ ["VK_MEDIA_PLAY_PAUSE"]
      = InvocationOutcome.panicked ("NewKeyBonding failed")
    ∧ pressedButton ⟨none, some ("Launching failed")⟩ ["VK_MEDIA_PLAY_PAUSE"]
      = InvocationOutcome.panicked ("Launching failed")
    ∧ pressedButton ⟨none, none⟩ ["NO_SUCH_KEY", "VK_MEDIA_PLAY_PAUSE"]
      = InvocationOutcome.ok :=
  ⟨rfl, rfl, rfl⟩

/-- C9: one configuration-change notification stops and restarts the
connection exactly once when the port or the baud rate differs from the
parameters in effect, and performs no stop/start cycle when both agree
(in particular when only an unrelated setting changed). -/
theorem reloadConnActions_spec (cfg : DeejConfig) (opts : ConnOptions) :
    (cfg.comPort ≠ opts.portName ∨ cfg.baudRate ≠ opts.baudRate →
      reloadConnActions cfg opts = [ConnAction.stop, ConnAction.start])
    ∧ (cfg.comPort = opts.portName → cfg.baudRate = opts.baudRate →
      reloadConnActions cfg opts = []) := by
  unfold reloadConnActions
  constructor
  · intro h
    rw [if_pos h]
  · intro h1 h2
    rw [if_neg]
    push_neg
    exact ⟨h1, h2⟩

theorem reloadConnActions_spec_witness :
    reloadConnActions ⟨"COM6", 115200, false, mkRat 1 40⟩ ⟨"COM6", 9600⟩
      = [ConnAction.stop, ConnAction.start]
    ∧ reloadConnActions ⟨"COM6", 9600, false, mkRat 7 200⟩ ⟨"COM6", 9600⟩ = [] :=
  ⟨(reloadConnActions_spec ⟨"COM6", 115200, false, mkRat 1 40⟩ ⟨"COM6", 9600⟩).1
      (Or.inr (by decide)),
   (reloadConnActions_spec ⟨"COM6", 9600, false, mkRat 7 200⟩ ⟨"COM6", 9600⟩).2 rfl rfl⟩

end Deej

namespace Deej

theorem splitCRLF_append (body : List Char) :
    splitCRLF (body ++ ['\r', '\n']) = some body := by
  unfold splitCRLF
  simp

theorem splitCRLF_eq_some {cs body : List Char} (h : splitCRLF cs = some body) :
    cs = body ++ ['\r', '\n'] := by
  unfold splitCRLF at h
  cases hrev : cs.reverse with
  | nil => rw [hrev] at h; exact absurd h (by simp)
  | cons a tail =>
    cases tail with
    | nil => rw [hrev] at h; exact absurd h (by simp)
    | cons b rest =>
      rw [hrev] at h
      have h' : (if a = '\n' ∧ b = '\r' then some rest.reverse else none)
          = some body := h
      by_cases hab : a = '\n' ∧ b = '\r'
      · rw [if_pos hab] at h'
        have hb : body = rest.reverse := by simpa using h'.symm
        subst hb
        obtain ⟨rfl, rfl⟩ := hab
        have hcs : cs = cs.reverse.reverse := (List.reverse_reverse cs).symm
        rw [hcs, hrev]
        simp
      · rw [if_neg hab] at h'
        exact absurd h' (by simp)

theorem tailButtons_cons2 (d t : Char) (rest : List Char) :
    tailButtons (d :: t :: rest)
      = (isDig d && decide (t = '~') && (rest.isEmpty || tailButtons rest)) := rfl

theorem tailButtons_interleave (ds : List Char) (hne : ds ≠ [])
    (hdig : ds.all isDig = true) : tailButtons (interleaveTilde ds) = true := by
  induction ds with
  | nil => exact absurd rfl hne
  | cons d ds ih =>
    simp only [List.all_cons, Bool.and_eq_true] at hdig
    cases ds with
    | nil =>
      show tailButtons [d, '~'] = true
      rw [tailButtons_cons2]
      simp [hdig.1]
    | cons d' ds' =>
      have hrest := ih (by simp) hdig.2
      show tailButtons (d :: '~' :: interleaveTilde (d' :: ds')) = true
      rw [tailButtons_cons2, hrest]
      simp [hdig.1]

theorem tailButtons_exists (n : ℕ) : ∀ cs : List Char, cs.length ≤ n →
    tailButtons cs = true →
    ∃ ds, ds ≠ [] ∧ ds.all isDig = true ∧ cs = interleaveTilde ds := by
  induction n with
  | zero =>
    intro cs hlen ht
    have hnil : cs = [] := List.eq_nil_of_length_eq_zero (Nat.le_zero.mp hlen)
    subst hnil
    simp [tailButtons] at ht
  | succ n ih =>
    intro cs hlen ht
    match cs with
    | [] => simp [tailButtons] at ht
    | [c] => simp [tailButtons] at ht
    | d :: t :: rest =>
      rw [tailButtons_cons2] at ht
      simp only [Bool.and_eq_true, decide_eq_true_eq, Bool.or_eq_true,
        List.isEmpty_iff] at ht
      obtain ⟨⟨hd, rfl⟩, hrest⟩ := ht
      cases hrest with
      | inl h0 =>
        subst h0
        exact ⟨[d], by simp, by simp [hd], by simp [interleaveTilde]⟩
      | inr h1 =>
        obtain ⟨ds', hne', hdig', heq'⟩ := ih rest (by simp at hlen; omega) h1
        exact ⟨d :: ds', by simp, by simp [hd, hdig'],
          by simp [interleaveTilde, heq']⟩

end Deej

namespace Deej

/-- C6 (amended): the button grammar accepts exactly the lines made of
a leading `~`, one or more single-digit fields (any digit 0–9) each
followed by `~`, and a CRLF trailer — not just digits 0 and 1. -/
theorem buttonMatch_iff (cs : List Char) :
    buttonMatch cs = true
      ↔ ∃ ds, ds ≠ [] ∧ ds.all isDig = true ∧ cs = buttonLineOfDigits ds := by
  constructor
  · intro h
    unfold buttonMatch at h
    cases hsp : splitCRLF cs with
    | none => rw [hsp] at h; exact absurd h (by simp)
    | some body =>
      rw [hsp] at h
      cases body with
      | nil => exact absurd h (by simp)
      | cons c rest =>
        have h' : (decide (c = '~') && tailButtons rest) = true := h
        simp only [Bool.and_eq_true, decide_eq_true_eq] at h'
        obtain ⟨rfl, htail⟩ := h'
        obtain ⟨ds, hne, hdig, rfl⟩ := tailButtons_exists rest.length rest le_rfl htail
        refine ⟨ds, hne, hdig, ?_⟩
        rw [splitCRLF_eq_some hsp]
        rfl
  · rintro ⟨ds, hne, hdig, rfl⟩
    unfold buttonMatch
    have hsp : splitCRLF (buttonLineOfDigits ds) = some ('~' :: interleaveTilde ds) := by
      have : buttonLineOfDigits ds = ('~' :: interleaveTilde ds) ++ ['\r', '\n'] := by
        simp [buttonLineOfDigits]
      rw [this, splitCRLF_append]
    rw [hsp]
    simp [tailButtons_interleave ds hne hdig]

/-- C6 (counterexample): the line `~2~` with CRLF trailer is accepted
by the button grammar and parses to the button value 2, although 2 is
neither 0 nor 1. -/
theorem buttonMatch_accepts_digit_two :
    buttonMatch ("~2~\r\n".data) = true
    ∧ parsedButtonValues ("~2~\r\n".data) = [2] :=
  ⟨by decide, by decide⟩

end Deej

namespace Deej

theorem sliderEventsAll_length (cfg : DeejConfig) (idx : Nat) (vals : List Int) :
    (sliderEventsAll cfg idx vals).length = vals.length := by
  induction vals generalizing idx with
  | nil => rfl
  | cons n rest ih => simp [sliderEventsAll, ih]

theorem sliderEventsAll_ids (cfg : DeejConfig) (idx : Nat) (vals : List Int) :
    (sliderEventsAll cfg idx vals).map SliderMoveEvent.SliderID
      = List.range' idx vals.length := by
  induction vals generalizing idx with
  | nil => rfl
  | cons n rest ih => simp [sliderEventsAll, List.range', ih]

theorem sliderLoopAux_nil (cfg : DeejConfig) (idx : Nat) (stored : List ℚ) :
    sliderLoopAux cfg idx stored [] = some (stored, []) := by
  unfold sliderLoopAux
  rfl

theorem sliderLoopAux_cons (cfg : DeejConfig) (idx : Nat) (old : ℚ) (os : List ℚ)
    (n : Int) (rest : List Int) :
    sliderLoopAux cfg idx (old :: os) (n :: rest)
      = if idx = 0 ∧ 1023 < n then none
        else
          match sliderLoopAux cfg (idx + 1) os rest with
          | none => none
          | some (st, evs) =>
            if significantlyDifferent old (normValue cfg n) cfg.noiseEpsilon then
              some (normValue cfg n :: st, ⟨idx, normValue cfg n⟩ :: evs)
            else some (old :: st, evs) := by
  conv_lhs => unfold sliderLoopAux

theorem sliderLoopAux_replicate (cfg : DeejConfig) (vals : List Int) (idx : Nat)
    (hg : idx = 0 → vals.headI ≤ 1023) :
    sliderLoopAux cfg idx (List.replicate vals.length (-1)) vals
      = some (vals.map (normValue cfg), sliderEventsAll cfg idx vals) := by
  induction vals generalizing idx with
  | nil => simp [sliderLoopAux, sliderEventsAll]
  | cons n rest ih =>
    have hguard : ¬(idx = 0 ∧ 1023 < n) := by
      rintro ⟨rfl, hbig⟩
      have := hg rfl
      simp only [List.headI] at this
      omega
    rw [List.length_cons, List.replicate_succ, sliderLoopAux_cons, if_neg hguard,
      ih (idx + 1) (by omega)]
    simp only [significantlyDifferent_unset, if_true]
    simp [sliderEventsAll]

/-- C4: when a well-formed slider frame arrives whose channel count
differs from the tracker's remembered count (and whose first value
passes the torn-line guard), the tracker remembers the new count,
every stored channel is re-populated from this frame, and exactly one
SliderMoveEvent per channel of the new frame is emitted, in channel
order. -/
theorem channelCountChange_resync (cfg : DeejConfig) (s : SioState) (line : List Char)
    (hmatch : sliderMatch line = true)
    (hdiff : (parsedSliderValues line).length ≠ s.lastKnownNumSliders)
    (hfirst : (parsedSliderValues line).headI ≤ 1023) :
    (handleLine cfg s line).state.lastKnownNumSliders = (parsedSliderValues line).length
    ∧ (handleLine cfg s line).state.currentSliderPercentValues
        = (parsedSliderValues line).map (normValue cfg)
    ∧ (handleLine cfg s line).sliderEvents.length = (parsedSliderValues line).length
    ∧ (handleLine cfg s line).sliderEvents.map SliderMoveEvent.SliderID
        = List.range (parsedSliderValues line).length := by
  have hb := slider_not_button hmatch
  simp only [handleLine, hb, hmatch, Bool.false_eq_true, if_false, if_true]
  unfold handleSliderFrame
  simp only [if_pos hdiff]
  rw [sliderLoopAux_replicate cfg (parsedSliderValues line) 0 (fun _ => hfirst)]
  refine ⟨rfl, rfl, sliderEventsAll_length cfg 0 _, ?_⟩
  rw [sliderEventsAll_ids cfg 0 _, List.range_eq_range']

theorem channelCountChange_resync_witness :
    sliderMatch ("100|200|300|400\r\n".data) = true
    ∧ (parsedSliderValues ("100|200|300|400\r\n".data)).length
        ≠ (⟨2, [mkRat 50 100, mkRat 50 100], 0, []⟩ : SioState).lastKnownNumSliders
    ∧ (parsedSliderValues ("100|200|300|400\r\n".data)).headI ≤ 1023
    ∧ ((handleLine sampleConfig ⟨2, [mkRat 50 100, mkRat 50 100], 0, []⟩
          ("100|200|300|400\r\n".data)).state.lastKnownNumSliders
        = (parsedSliderValues ("100|200|300|400\r\n".data)).length
       ∧ (handleLine sampleConfig ⟨2, [mkRat 50 100, mkRat 50 100], 0, []⟩
          ("100|200|300|400\r\n".data)).state.currentSliderPercentValues
        = (parsedSliderValues ("100|200|300|400\r\n".data)).map (normValue sampleConfig)
       ∧ (handleLine sampleConfig ⟨2, [mkRat 50 100, mkRat 50 100], 0, []⟩
          ("100|200|300|400\r\n".data)).sliderEvents.length
        = (parsedSliderValues ("100|200|300|400\r\n".data)).length
       ∧ (handleLine sampleConfig ⟨2, [mkRat 50 100, mkRat 50 100], 0, []⟩
          ("100|200|300|400\r\n".data)).sliderEvents.map SliderMoveEvent.SliderID
        = List.range (parsedSliderValues ("100|200|300|400\r\n".data)).length) :=
  ⟨by decide, by decide, by decide,
   channelCountChange_resync sampleConfig _ _ (by decide) (by decide) (by decide)⟩

end Deej

namespace Deej

theorem significantlyDifferent_normValue_self (cfg : DeejConfig) (n : Int)
    (hε : 0 ≤ cfg.noiseEpsilon) :
    significantlyDifferent (normValue cfg n) (normValue cfg n) cfg.noiseEpsilon
      = false :=
  significantlyDifferent_self _ _ hε (normValue_ne_negOne cfg n)

theorem sliderLoopAux_stable (cfg : DeejConfig) (hε : 0 ≤ cfg.noiseEpsilon) :
    ∀ (vals : List Int) (idx : Nat) (stored st : List ℚ)
      (evs : List SliderMoveEvent),
      sliderLoopAux cfg idx stored vals = some (st, evs) →
      sliderLoopAux cfg idx st vals = some (st, []) := by
  intro vals
  induction vals with
  | nil =>
    intro idx stored st evs h
    rw [sliderLoopAux_nil] at h
    simp only [Option.some.injEq, Prod.mk.injEq] at h
    obtain ⟨rfl, rfl⟩ := h
    exact sliderLoopAux_nil cfg idx _
  | cons n rest ih =>
    intro idx stored st evs h
    by_cases hguard : idx = 0 ∧ 1023 < n
    · cases stored with
      | nil =>
        unfold sliderLoopAux at h
        rw [if_pos hguard] at h
        exact absurd h (by simp)
      | cons old os =>
        rw [sliderLoopAux_cons, if_pos hguard] at h
        exact absurd h (by simp)
    · cases stored with
      | nil =>
        unfold sliderLoopAux at h
        rw [if_neg hguard] at h
        exact absurd h (by simp)
      | cons old os =>
        rw [sliderLoopAux_cons, if_neg hguard] at h
        cases hrec : sliderLoopAux cfg (idx + 1) os rest with
        | none => rw [hrec] at h; exact absurd h (by simp)
        | some p =>
          obtain ⟨st', evs'⟩ := p
          rw [hrec] at h
          have h2 : (if significantlyDifferent old (normValue cfg n)
                cfg.noiseEpsilon = true then
              some (normValue cfg n :: st',
                (⟨idx, normValue cfg n⟩ : SliderMoveEvent) :: evs')
            else some (old :: st', evs')) = some (st, evs) := h
          by_cases hsig :
              significantlyDifferent old (normValue cfg n) cfg.noiseEpsilon = true
          · rw [if_pos hsig] at h2
            simp only [Option.some.injEq, Prod.mk.injEq] at h2
            obtain ⟨⟨rfl, rfl⟩⟩ := h2
            rw [sliderLoopAux_cons, if_neg hguard, ih (idx + 1) os st' evs' hrec,
              significantlyDifferent_normValue_self cfg n hε]
            simp
          · rw [if_neg hsig] at h2
            simp only [Option.some.injEq, Prod.mk.injEq] at h2
            obtain ⟨⟨rfl, rfl⟩⟩ := h2
            have hsig' : significantlyDifferent old (normValue cfg n)
                cfg.noiseEpsilon = false := Bool.eq_false_iff.mpr hsig
            rw [sliderLoopAux_cons, if_neg hguard, ih (idx + 1) os st' evs' hrec]
            simp [hsig']

end Deej

namespace Deej

theorem handleSliderFrame_def_none (cfg : DeejConfig) (s : SioState)
    (vals : List Int) (s1 : SioState)
    (hs1 : s1 = (if vals.length ≠ s.lastKnownNumSliders then
      { s with lastKnownNumSliders := vals.length
               currentSliderPercentValues := List.replicate vals.length (-1) }
      else s))
    (hloop : sliderLoopAux cfg 0 s1.currentSliderPercentValues vals = none) :
    handleSliderFrame cfg s vals = ⟨s1, []⟩ := by
  subst hs1
  unfold handleSliderFrame
  simp only [hloop]

theorem handleSliderFrame_def_some (cfg : DeejConfig) (s : SioState)
    (vals : List Int) (s1 : SioState) (st : List ℚ) (evs : List SliderMoveEvent)
    (hs1 : s1 = (if vals.length ≠ s.lastKnownNumSliders then
      { s with lastKnownNumSliders := vals.length
               currentSliderPercentValues := List.replicate vals.length (-1) }
      else s))
    (hloop : sliderLoopAux cfg 0 s1.currentSliderPercentValues vals = some (st, evs)) :
    handleSliderFrame cfg s vals
      = ⟨⟨s1.lastKnownNumSliders, st, s1.lastKnownNumButtons,
          s1.currentButtonValues⟩, evs⟩ := by
  subst hs1
  unfold handleSliderFrame
  simp only [hloop]

theorem handleSliderFrame_idem (cfg : DeejConfig) (s : SioState) (vals : List Int)
    (hε : 0 ≤ cfg.noiseEpsilon) :
    handleSliderFrame cfg (handleSliderFrame cfg s vals).state vals
      = ⟨(handleSliderFrame cfg s vals).state, []⟩ := by
  by_cases hdiff : vals.length ≠ s.lastKnownNumSliders
  case pos =>
    set s1 : SioState :=
      { s with lastKnownNumSliders := vals.length
               currentSliderPercentValues := List.replicate vals.length (-1) }
      with hs1def
    have hs1 : s1 = (if vals.length ≠ s.lastKnownNumSliders then
        { s with lastKnownNumSliders := vals.length
                 currentSliderPercentValues := List.replicate vals.length (-1) }
        else s) := by rw [if_pos hdiff]
    have hc : s1.lastKnownNumSliders = vals.length := rfl
    cases hloop : sliderLoopAux cfg 0 s1.currentSliderPercentValues vals with
    | none =>
      rw [handleSliderFrame_def_none cfg s vals s1 hs1 hloop]
      exact handleSliderFrame_def_none cfg s1 vals s1
        (by rw [if_neg (not_ne_iff.mpr hc.symm)]) hloop
    | some p =>
      obtain ⟨st, evs⟩ := p
      rw [handleSliderFrame_def_some cfg s vals s1 st evs hs1 hloop]
      have hst := sliderLoopAux_stable cfg hε vals 0
        s1.currentSliderPercentValues st evs hloop
      exact handleSliderFrame_def_some cfg
        ⟨s1.lastKnownNumSliders, st, s1.lastKnownNumButtons, s1.currentButtonValues⟩
        vals
        ⟨s1.lastKnownNumSliders, st, s1.lastKnownNumButtons, s1.currentButtonValues⟩
        st [] (by rw [if_neg (not_ne_iff.mpr rfl)]) hst
  case neg =>
    have heq : vals.length = s.lastKnownNumSliders := not_ne_iff.mp hdiff
    have hs1 : s = (if vals.length ≠ s.lastKnownNumSliders then
        { s with lastKnownNumSliders := vals.length
                 currentSliderPercentValues := List.replicate vals.length (-1) }
        else s) := by rw [if_neg hdiff]
    cases hloop : sliderLoopAux cfg 0 s.currentSliderPercentValues vals with
    | none =>
      rw [handleSliderFrame_def_none cfg s vals s hs1 hloop]
      exact handleSliderFrame_def_none cfg s vals s hs1 hloop
    | some p =>
      obtain ⟨st, evs⟩ := p
      rw [handleSliderFrame_def_some cfg s vals s st evs hs1 hloop]
      have hst := sliderLoopAux_stable cfg hε vals 0
        s.currentSliderPercentValues st evs hloop
      exact handleSliderFrame_def_some cfg
        ⟨s.lastKnownNumSliders, st, s.lastKnownNumButtons, s.currentButtonValues⟩
        vals
        ⟨s.lastKnownNumSliders, st, s.lastKnownNumButtons, s.currentButtonValues⟩
        st [] (by rw [if_neg hdiff]) hst

end Deej

namespace Deej

/-- C5: processing the same grammar-valid slider line twice in a row is
idempotent — the second pass emits no events and leaves the whole
tracker state exactly as the first pass left it. -/
theorem handleLine_slider_idempotent (cfg : DeejConfig) (s : SioState)
    (line : List Char) (hε : 0 ≤ cfg.noiseEpsilon)
    (hmatch : sliderMatch line = true) :
    handleLine cfg (handleLine cfg s line).state line
      = ⟨(handleLine cfg s line).state, [], [], []⟩ := by
  have hb := slider_not_button hmatch
  simp only [handleLine, hb, hmatch, Bool.false_eq_true, if_false, if_true]
  rw [handleSliderFrame_idem cfg s (parsedSliderValues line) hε]

theorem handleLine_slider_idempotent_witness :
    (0 : ℚ) ≤ sampleConfig.noiseEpsilon
    ∧ sliderMatch ("512|1023|0\r\n".data) = true
    ∧ handleLine sampleConfig
        (handleLine sampleConfig initialSioState ("512|1023|0\r\n".data)).state
        ("512|1023|0\r\n".data)
      = ⟨(handleLine sampleConfig initialSioState ("512|1023|0\r\n".data)).state,
         [], [], []⟩ :=
  ⟨by decide, by decide,
   handleLine_slider_idempotent sampleConfig initialSioState _ (by decide) (by decide)⟩

end Deej

namespace Deej

theorem buttonLoopAux_nil (idx : Nat) (stored : List Int) :
    buttonLoopAux idx stored [] = some (stored, []) := by
  unfold buttonLoopAux
  rfl

theorem buttonLoopAux_cons (idx : Nat) (old : Int) (os : List Int) (n : Int)
    (rest : List Int) :
    buttonLoopAux idx (old :: os) (n :: rest)
      = if idx = 0 ∧ 9 < n then none
        else
          match buttonLoopAux (idx + 1) os rest with
          | none => none
          | some (st, evs) =>
            if old ≠ n then some (n :: st, ⟨idx, old, n⟩ :: evs)
            else some (old :: st, evs) := by
  conv_lhs => unfold buttonLoopAux

theorem buttonLoopAux_eq (vals : List Int) : ∀ (idx : Nat) (stored : List Int),
    stored.length = vals.length → (idx = 0 → vals.headI ≤ 9) →
    buttonLoopAux idx stored vals = some (vals, buttonEventsSpec idx stored vals) := by
  induction vals with
  | nil =>
    intro idx stored hlen _
    have : stored = [] := List.eq_nil_of_length_eq_zero hlen
    subst this
    rw [buttonLoopAux_nil]
    rfl
  | cons n rest ih =>
    intro idx stored hlen hg
    cases stored with
    | nil => simp at hlen
    | cons old os =>
      have hguard : ¬(idx = 0 ∧ 9 < n) := by
        rintro ⟨rfl, hbig⟩
        have := hg rfl
        simp only [List.headI] at this
        omega
      rw [buttonLoopAux_cons, if_neg hguard,
        ih (idx + 1) os (by simpa using hlen) (by omega)]
      by_cases hne : old ≠ n
      · simp [buttonEventsSpec, hne]
      · push_neg at hne
        subst hne
        simp [buttonEventsSpec]

theorem buttonEventsSpec_id_ge (idx : Nat) :
    ∀ (l1 l2 : List Int) (e : ButtonPressEvent),
      e ∈ buttonEventsSpec idx l1 l2 → idx ≤ e.ButtonID := by
  intro l1
  induction l1 generalizing idx with
  | nil => intro l2 e he; simp [buttonEventsSpec] at he
  | cons old os ih =>
    intro l2 e he
    cases l2 with
    | nil => simp [buttonEventsSpec] at he
    | cons n ns =>
      simp only [buttonEventsSpec, List.mem_append] at he
      cases he with
      | inl h =>
        by_cases hne : old ≠ n
        · rw [if_pos hne] at h
          simp at h
          subst h
          exact le_refl idx
        · rw [if_neg hne] at h
          simp at h
      | inr h =>
        have := ih (idx + 1) ns e h
        omega

theorem buttonEventsSpec_filter (k : Nat) :
    ∀ (idx : Nat) (stored vals : List Int) (o n_ : Int),
      stored.get? k = some o → vals.get? k = some n_ →
      (buttonEventsSpec idx stored vals).filter (fun e => e.ButtonID == idx + k)
        = if o ≠ n_ then [⟨idx + k, o, n_⟩] else [] := by
  induction k with
  | zero =>
    intro idx stored vals o n_ ho hn
    cases stored with
    | nil => simp at ho
    | cons old os =>
      cases vals with
      | nil => simp at hn
      | cons n ns =>
        have ho' : old = o := by simpa using ho
        have hn' : n = n_ := by simpa using hn
        subst ho'; subst hn'
        simp only [buttonEventsSpec, List.filter_append]
        have hrest : (buttonEventsSpec (idx + 1) os ns).filter
            (fun e => e.ButtonID == idx + 0) = [] := by
          rw [List.filter_eq_nil_iff]
          intro e he
          have := buttonEventsSpec_id_ge (idx + 1) os ns e he
          simp only [beq_iff_eq]
          omega
        rw [hrest, List.append_nil]
        by_cases hne : old ≠ n
        · rw [if_pos hne, if_pos hne]
          simp
        · rw [if_neg hne, if_neg hne]
          simp
  | succ k ih =>
    intro idx stored vals o n_ ho hn
    cases stored with
    | nil => simp at ho
    | cons old os =>
      cases vals with
      | nil => simp at hn
      | cons n ns =>
        have ho' : os.get? k = some o := by simpa using ho
        have hn' : ns.get? k = some n_ := by simpa using hn
        simp only [buttonEventsSpec, List.filter_append]
        have hhead : (if old ≠ n then [(⟨idx, old, n⟩ : ButtonPressEvent)] else []).filter
            (fun e => e.ButtonID == idx + (k + 1)) = [] := by
          split
          · simp only [List.filter_cons, List.filter_nil]
            rw [if_neg]
            simp only [beq_iff_eq]
            omega
          · rfl
        rw [hhead, List.nil_append]
        have := ih (idx + 1) os ns o n_ ho' hn'
        rw [show idx + (k + 1) = (idx + 1) + k by omega]
        exact this

end Deej

namespace Deej

theorem handleButtonFrame_no_reset (s : SioState) (vals : List Int)
    (hcount : vals.length = s.lastKnownNumButtons)
    (hlen : s.currentButtonValues.length = vals.length)
    (hg : vals.headI ≤ 9) :
    handleButtonFrame s vals
      = ⟨⟨s.lastKnownNumSliders, s.currentSliderPercentValues,
          s.lastKnownNumButtons, vals⟩,
         buttonEventsSpec 0 s.currentButtonValues vals,
         (buttonEventsSpec 0 s.currentButtonValues vals).filter
           (fun e => decide (e.PreviousValue = 0 ∧ e.ButtonValue ≠ 0))⟩ := by
  unfold handleButtonFrame
  rw [if_neg (not_ne_iff.mpr hcount)]
  simp only [buttonLoopAux_eq vals 0 s.currentButtonValues hlen (fun _ => hg)]

/-- C3: with an established channel count and a frame passing the
torn-line guard, a channel whose stored value is 0 and whose new value
is non-zero causes exactly one `pressedButton` invocation, carrying
that event (previous 0, the new value); a falling-edge channel
(stored non-zero, new 0) and an unchanged channel cause none. -/
theorem button_edge_trigger (s : SioState) (vals : List Int) (i : Nat) (o n : Int)
    (hcount : vals.length = s.lastKnownNumButtons)
    (hlen : s.currentButtonValues.length = vals.length)
    (hg : vals.headI ≤ 9)
    (ho : s.currentButtonValues.get? i = some o)
    (hn : vals.get? i = some n) :
    (o = 0 → n ≠ 0 →
      (handleButtonFrame s vals).triggered.filter (fun e => e.ButtonID == i)
        = [⟨i, 0, n⟩])
    ∧ (o ≠ 0 → n = 0 →
      (handleButtonFrame s vals).triggered.filter (fun e => e.ButtonID == i) = [])
    ∧ (o = n →
      (handleButtonFrame s vals).triggered.filter (fun e => e.ButtonID == i) = []) := by
  rw [handleButtonFrame_no_reset s vals hcount hlen hg]
  have hcomm :
      ((buttonEventsSpec 0 s.currentButtonValues vals).filter
        (fun e => decide (e.PreviousValue = 0 ∧ e.ButtonValue ≠ 0))).filter
          (fun e => e.ButtonID == i)
      = ((buttonEventsSpec 0 s.currentButtonValues vals).filter
          (fun e => e.ButtonID == i)).filter
            (fun e => decide (e.PreviousValue = 0 ∧ e.ButtonValue ≠ 0)) := by
    rw [List.filter_filter, List.filter_filter]
    congr 1
    funext e
    exact Bool.and_comm _ _
  have hfil := buttonEventsSpec_filter i 0 s.currentButtonValues vals o n ho hn
  simp only [Nat.zero_add] at hfil
  refine ⟨?_, ?_, ?_⟩
  · intro ho0 hn0
    rw [hcomm, hfil, if_pos (show o ≠ n by omega)]
    subst ho0
    simp [List.filter_cons, hn0]
  · intro ho0 hn0
    rw [hcomm, hfil, if_pos (show o ≠ n by omega)]
    subst hn0
    simp [List.filter_cons, ho0]
  · intro hon
    rw [hcomm, hfil, if_neg (show ¬o ≠ n by omega)]
    rfl

theorem button_edge_trigger_witness :
    ([1, 1, 0] : List Int).length
        = (⟨0, [], 3, [0, 1, 0]⟩ : SioState).lastKnownNumButtons
    ∧ (⟨0, [], 3, [0, 1, 0]⟩ : SioState).currentButtonValues.length
        = ([1, 1, 0] : List Int).length
    ∧ ([1, 1, 0] : List Int).headI ≤ 9
    ∧ (⟨0, [], 3, [0, 1, 0]⟩ : SioState).currentButtonValues.get? 0 = some 0
    ∧ ([1, 1, 0] : List Int).get? 0 = some 1
    ∧ (((0 : Int) = 0 → (1 : Int) ≠ 0 →
        (handleButtonFrame ⟨0, [], 3, [0, 1, 0]⟩ [1, 1, 0]).triggered.filter
          (fun e => e.ButtonID == 0) = [⟨0, 0, 1⟩])
       ∧ ((0 : Int) ≠ 0 → (1 : Int) = 0 →
        (handleButtonFrame ⟨0, [], 3, [0, 1, 0]⟩ [1, 1, 0]).triggered.filter
          (fun e => e.ButtonID == 0) = [])
       ∧ ((0 : Int) = 1 →
        (handleButtonFrame ⟨0, [], 3, [0, 1, 0]⟩ [1, 1, 0]).triggered.filter
          (fun e => e.ButtonID == 0) = [])) :=
  ⟨by decide, by decide, by decide, by decide, by decide,
   button_edge_trigger ⟨0, [], 3, [0, 1, 0]⟩ [1, 1, 0] 0 0 1
     (by decide) (by decide) (by decide) (by decide) (by decide)⟩

end Deej

namespace Deej

theorem sliderLoopAux_mem (cfg : DeejConfig) :
    ∀ (vals : List Int) (idx : Nat) (stored st : List ℚ)
      (evs : List SliderMoveEvent),
      sliderLoopAux cfg idx stored vals = some (st, evs) →
      ∀ q ∈ st, q ∈ stored ∨ ∃ n : Int, q = normValue cfg n := by
  intro vals
  induction vals with
  | nil =>
    intro idx stored st evs h q hq
    rw [sliderLoopAux_nil] at h
    simp only [Option.some.injEq, Prod.mk.injEq] at h
    obtain ⟨rfl, rfl⟩ := h
    exact Or.inl hq
  | cons n rest ih =>
    intro idx stored st evs h q hq
    cases stored with
    | nil =>
      unfold sliderLoopAux at h
      by_cases hguard : idx = 0 ∧ 1023 < n
      · rw [if_pos hguard] at h
        exact absurd h (by simp)
      · rw [if_neg hguard] at h
        exact absurd h (by simp)
    | cons old os =>
      by_cases hguard : idx = 0 ∧ 1023 < n
      · rw [sliderLoopAux_cons, if_pos hguard] at h
        exact absurd h (by simp)
      · rw [sliderLoopAux_cons, if_neg hguard] at h
        cases hrec : sliderLoopAux cfg (idx + 1) os rest with
        | none => rw [hrec] at h; exact absurd h (by simp)
        | some p =>
          obtain ⟨st', evs'⟩ := p
          rw [hrec] at h
          have h2 : (if significantlyDifferent old (normValue cfg n)
                cfg.noiseEpsilon = true then
              some (normValue cfg n :: st',
                (⟨idx, normValue cfg n⟩ : SliderMoveEvent) :: evs')
            else some (old :: st', evs')) = some (st, evs) := h
          by_cases hsig :
              significantlyDifferent old (normValue cfg n) cfg.noiseEpsilon = true
          · rw [if_pos hsig] at h2
            simp only [Option.some.injEq, Prod.mk.injEq] at h2
            obtain ⟨⟨rfl, rfl⟩⟩ := h2
            rcases List.mem_cons.mp hq with rfl | hq'
            · exact Or.inr ⟨n, rfl⟩
            · rcases ih (idx + 1) os st' evs' hrec q hq' with hmem | hnorm
              · exact Or.inl (List.mem_cons_of_mem old hmem)
              · exact Or.inr hnorm
          · rw [if_neg hsig] at h2
            simp only [Option.some.injEq, Prod.mk.injEq] at h2
            obtain ⟨⟨rfl, rfl⟩⟩ := h2
            rcases List.mem_cons.mp hq with rfl | hq'
            · exact Or.inl (List.mem_cons.mpr (Or.inl rfl))
            · rcases ih (idx + 1) os st' evs' hrec q hq' with hmem | hnorm
              · exact Or.inl (List.mem_cons_of_mem old hmem)
              · exact Or.inr hnorm

end Deej

namespace Deej

theorem handleButtonFrame_slider_fields (s : SioState) (vals : List Int) :
    (handleButtonFrame s vals).state.currentSliderPercentValues
      = s.currentSliderPercentValues := by
  unfold handleButtonFrame
  by_cases hc : vals.length ≠ s.lastKnownNumButtons
  · simp only [if_pos hc]
    cases hloop : buttonLoopAux 0 (List.replicate vals.length (-1)) vals with
    | none => rfl
    | some p => obtain ⟨st, evs⟩ := p; rfl
  · simp only [if_neg hc]
    cases hloop : buttonLoopAux 0 s.currentButtonValues vals with
    | none => rfl
    | some p => obtain ⟨st, evs⟩ := p; rfl

theorem normValue_ok (cfg : DeejConfig) (n : Int) :
    normValue cfg n = -1 ∨ (0 ≤ normValue cfg n ∧ normValue cfg n ≤ 1) :=
  Or.inr ⟨normValue_nonneg cfg n, normValue_le_one cfg n⟩

theorem handleSliderFrame_inv (cfg : DeejConfig) (s : SioState) (vals : List Int)
    (h : sliderValuesOK s) : sliderValuesOK (handleSliderFrame cfg s vals).state := by
  unfold handleSliderFrame
  have hrep : ∀ q ∈ List.replicate vals.length (-1 : ℚ), q = -1 ∨ (0 ≤ q ∧ q ≤ 1) := by
    intro q hq
    exact Or.inl (List.eq_of_mem_replicate hq)
  by_cases hc : vals.length ≠ s.lastKnownNumSliders
  · simp only [if_pos hc]
    cases hloop : sliderLoopAux cfg 0 (List.replicate vals.length (-1)) vals with
    | none => exact hrep
    | some p =>
      obtain ⟨st, evs⟩ := p
      intro q hq
      rcases sliderLoopAux_mem cfg vals 0 _ st evs hloop q hq with hmem | ⟨n, rfl⟩
      · exact hrep q hmem
      · exact normValue_ok cfg n
  · simp only [if_neg hc]
    cases hloop : sliderLoopAux cfg 0 s.currentSliderPercentValues vals with
    | none => exact h
    | some p =>
      obtain ⟨st, evs⟩ := p
      intro q hq
      rcases sliderLoopAux_mem cfg vals 0 _ st evs hloop q hq with hmem | ⟨n, rfl⟩
      · exact h q hmem
      · exact normValue_ok cfg n

theorem handleLine_inv (cfg : DeejConfig) (s : SioState) (line : List Char)
    (h : sliderValuesOK s) : sliderValuesOK (handleLine cfg s line).state := by
  unfold handleLine
  by_cases hb : buttonMatch line = true
  · simp only [hb, if_true]
    intro q hq
    rw [handleButtonFrame_slider_fields] at hq
    exact h q hq
  · rw [Bool.not_eq_true] at hb
    simp only [hb, Bool.false_eq_true, if_false]
    by_cases hs : sliderMatch line = true
    · simp only [hs, if_true]
      exact handleSliderFrame_inv cfg s (parsedSliderValues line) h
    · rw [Bool.not_eq_true] at hs
      simp only [hs, Bool.false_eq_true, if_false]
      exact h

/-- C10: after any sequence of raw lines processed from the initial
state, every stored slider scalar is either the unset sentinel `-1` or
a normalized value in `[0, 1]`. -/
theorem slider_state_sentinel_or_unit (cfg : DeejConfig) (lines : List (List Char)) :
    ∀ q ∈ (processLines cfg lines).currentSliderPercentValues,
      q = -1 ∨ (0 ≤ q ∧ q ≤ 1) := by
  suffices hgen : ∀ (ls : List (List Char)) (s : SioState), sliderValuesOK s →
      sliderValuesOK (ls.foldl (fun s l => (handleLine cfg s l).state) s) by
    exact hgen lines initialSioState (by intro q hq; simp [initialSioState] at hq)
  intro ls
  induction ls with
  | nil => intro s hs; exact hs
  | cons l ls ih =>
    intro s hs
    exact ih ((handleLine cfg s l).state) (handleLine_inv cfg s l hs)

theorem slider_state_sentinel_or_unit_witness :
    (mkRat 50 100) ∈ (processLines sampleConfig
        [("512|1023|0\r\n".data)]).currentSliderPercentValues
    ∧ ((mkRat 50 100 : ℚ) = -1 ∨ (0 ≤ (mkRat 50 100 : ℚ) ∧ (mkRat 50 100 : ℚ) ≤ 1)) :=
  ⟨by decide,
   slider_state_sentinel_or_unit sampleConfig [("512|1023|0\r\n".data)]
     (mkRat 50 100) (by decide)⟩

end Deej
